import Mathlib

/-!
# Verification of the athena_schema column generator

Shallow embedding of `cmd/athena_schema/main.go` (package `main` of
uzimith/athena_schema): the type-to-column resolution engine
(`genSqlType`, `genCoulmns`, `SQLTypeMap`) and the acronym-aware
snake_case converter (`CamelToSnake`, `startsWithInitialism`,
`commonInitialisms`).

Modelling conventions:

* Go `types.Type` values are embedded as the inductive `GoType`.  A
  `*types.Named` type carries only its printable name; its underlying
  type lives in an environment `Env` (a finite association list from
  type name to underlying type), because in Go the named-type graph may
  be cyclic, and `genSqlType` follows `Underlying()` with no cycle
  guard.  Unbounded recursion is made observable with a fuel parameter:
  running out of fuel yields the result `Res.diverge`.
* `types.Type.String()` is embedded as `typeString`.  For struct types
  Go prints `struct{Field type "tag"; ...}`; we print the same shape
  minus the tag text, which is sound for the only use of the string
  (lookup in `SQLTypeMap`, whose keys never begin with `struct{`).
* `reflect.StructTag.Lookup` is embedded as first-match lookup in an
  association list of `(key, value)` pairs, which is its semantics on
  well-formed tags.
* Strings are handled as `List Char`; Go indexes `s[lastPos:i]` by
  bytes and `rs[i]` by runes, which agree on ASCII input, and all
  identifiers and initialisms involved here are ASCII.  `unicode.IsUpper`
  / `strings.ToLower` agree with `Char.isUpper` / `Char.toLower` on
  ASCII.
-/

/-- Embedding of the Go type representation (`go/types`) as seen by
`genSqlType`'s type switch: `*types.Basic`, `*types.Slice`,
`*types.Array`, `*types.Struct`, `*types.Map`, `*types.Pointer`,
`*types.Named`, and every other kind (func, chan, interface, ...)
collapsed into `other` carrying only its printable representation. -/
inductive GoType : Type where
  | basic (name : String)
  | slice (elem : GoType)
  | array (n : Nat) (elem : GoType)
  | strct (fields : List (String × GoType × List (String × String)))
  | mapTy (key value : GoType)
  | pointer (elem : GoType)
  | named (name : String)
  | other (repr : String)
deriving Repr

/-- One struct field as `genCoulmns` sees it: identifier, declared type
and tag map (`reflect.StructTag` modelled as an association list). -/
structure GoField : Type where
  name : String
  type : GoType
  tags : List (String × String)
deriving Repr

/-- The named-type environment: for each `*types.Named` type's printable
name, its `Underlying()` type. -/
abbrev Env : Type := List (String × GoType)

/-- `Column` from main.go. -/
structure Column : Type where
  Name : String
  «Type» : String
deriving Repr, DecidableEq

/-- `SQLTypeMap` from main.go, verbatim. -/
def SQLTypeMap : List (String × String) :=
  [("bool", "boolean"),
   ("string", "string"),
   ("int", "int"),
   ("int8", "int"),
   ("int16", "int"),
   ("int32", "int"),
   ("int64", "int"),
   ("uint8", "int"),
   ("uint16", "int"),
   ("uint32", "int"),
   ("uint64", "int"),
   ("float32", "float"),
   ("float64", "double"),
   ("[]byte", "string"),
   ("time.Time", "timestamp")]

mutual

/-- `types.Type.String()` for the embedded types (struct tags omitted,
see module docstring). -/
def typeString : GoType → String
  | .basic name => name
  | .slice e => "[]" ++ typeString e
  | .array n e => "[" ++ toString n ++ "]" ++ typeString e
  | .strct fields => "struct\x7b" ++ fieldsString fields ++ "\x7d"
  | .mapTy k v => "map[" ++ typeString k ++ "]" ++ typeString v
  | .pointer e => "*" ++ typeString e
  | .named name => name
  | .other r => r

/-- Struct-body part of `types.Type.String()`. -/
def fieldsString : List (String × GoType × List (String × String)) → String
  | [] => ""
  | [(n, t, _)] => n ++ " " ++ typeString t
  | (n, t, _) :: f :: fs => n ++ " " ++ typeString t ++ "; " ++ fieldsString (f :: fs)

end

/-- `commonInitialisms` from main.go, verbatim (the keys mapped to
`true`). -/
def commonInitialisms : List String :=
  ["ACL", "API", "ASCII", "CPU", "CSS", "DNS", "EOF", "ETA", "GPU",
   "GUID", "HTML", "HTTP", "HTTPS", "ID", "IP", "JSON", "LHS", "OS",
   "QPS", "RAM", "RHS", "RPC", "SLA", "SMTP", "SQL", "SSH", "TCP",
   "TLS", "TTL", "UDP", "UI", "UID", "UUID", "URI", "URL", "UTF8",
   "VM", "XML", "XMPP", "XSRF", "XSS", "OAuth"]

/-- `startsWithInitialism` from main.go: for `i = 1..5`, if
`len(s) > i-1` and `s[:i]` is a common initialism, remember `s[:i]`;
the last (longest) hit wins, `""` if none. -/
def startsWithInitialism (s : List Char) : List Char :=
  (List.range' 1 5).foldl
    (fun acc i =>
      if s.length > i - 1 ∧ commonInitialisms.contains (String.mk (s.take i)) then
        s.take i
      else acc)
    []

/-- The scanning loop of `CamelToSnake`: `i` is the loop index over the
runes `rs`, `lastPos` the start of the current word, `words` the words
collected so far.  `fuel` only bounds the number of loop steps; since
`i` strictly increases each step, `rs.length + 1` steps always reach
the exit, so the fuel never runs out when the function is entered
through `CamelToSnake` (see `camelToSnakeWords_fuel`-style arguments in
the proofs; the `fuel = 0` branch returns the exit result for the
current state). -/
def camelToSnakeWords (rs : List Char) : Nat → Nat → Nat → List (List Char) → List (List Char)
  | 0, _, lastPos, words =>
      if rs.drop lastPos = [] then words else words ++ [rs.drop lastPos]
  | fuel + 1, i, lastPos, words =>
      if _h : i < rs.length then
        if 0 < i ∧ (rs.get ⟨i, _h⟩).isUpper then
          let initialism := startsWithInitialism (rs.drop lastPos)
          if initialism ≠ [] then
            camelToSnakeWords rs fuel (i + initialism.length)
              (i + initialism.length - 1) (words ++ [initialism])
          else
            camelToSnakeWords rs fuel (i + 1) i (words ++ [rs.drop lastPos |>.take (i - lastPos)])
        else
          camelToSnakeWords rs fuel (i + 1) lastPos words
      else
        if rs.drop lastPos = [] then words else words ++ [rs.drop lastPos]

/-- `CamelToSnake` from main.go: split the identifier into words at
uppercase letters, keeping known initialisms whole, then lowercase the
words and join them with `_`. -/
def CamelToSnake (s : String) : String :=
  let rs := s.toList
  let words := camelToSnakeWords rs (rs.length + 1) 0 0 []
  String.mk (List.intercalate ['_'] (words.map (fun w => w.map Char.toLower)))

/-- Result of running embedded code that, in Go, may fail (`("", false)`
from `genSqlType`), abort the process (`log.Fatalf` in `genCoulmns`,
carrying the offending field's identifier), or not terminate at all
(modelled as running out of fuel). -/
inductive Res (α : Type) : Type where
  | diverge : Res α
  | fatal (fieldName : String) : Res α
  | fail : Res α
  | ok (a : α) : Res α
deriving Repr, DecidableEq

/-- Go `strings.Split(s, ",")` on the character list of `s`:
`strings.Split("", ",") = [""]`, and the result is never empty. -/
def splitComma : List Char → List (List Char)
  | [] => [[]]
  | c :: rest =>
    if c = ',' then [] :: splitComma rest
    else
      match splitComma rest with
      | [] => [[c]]
      | h :: t => (c :: h) :: t

/-- `reflect.StructTag.Lookup` on the tag map: first entry with the key. -/
def lookupTag (tags : List (String × String)) (key : String) : Option String :=
  tags.lookup key

/-- The name computed by the body of `genCoulmns` for one field:
`CamelToSnake(field.Name())`, overridden by the first comma-segment of
the `json` tag when that tag is present. -/
def columnName (field : GoField) : String :=
  match lookupTag field.tags "json" with
  | some jsonTag => String.mk ((splitComma jsonTag.toList).headD [])
  | none => CamelToSnake field.name

/-- The `sqlType` value of the body of `genCoulmns` before type
resolution: the `athena` tag's value when present, `""` otherwise. -/
def athenaValue (field : GoField) : String :=
  (lookupTag field.tags "athena").getD ""

/-- One iteration of the `genCoulmns` loop, parameterised by the type
resolver (`genSqlType` at the current fuel): `ok none` means the field
was dropped (`continue`), `ok (some c)` that it emitted column `c`,
`fatal` the `log.Fatalf("no support field type: %s", field.Name())`
abort (or one propagated out of a nested struct). -/
def genColumnWith (resolve : GoType → Res String) (field : GoField) :
    Res (Option Column) :=
  let name := columnName field
  let sqlType := athenaValue field
  if name = "-" ∨ sqlType = "-" then .ok none
  else if sqlType = "" then
    match resolve field.type with
    | .ok t => .ok (some ⟨name, t⟩)
    | .fail => .fatal field.name
    | .fatal n => .fatal n
    | .diverge => .diverge
  else .ok (some ⟨name, sqlType⟩)

/-- The `genCoulmns` loop, parameterised by the type resolver: collect
the emitted columns in field order, aborting the whole run at the first
fatal field. -/
def genCoulmnsWith (resolve : GoType → Res String) :
    List GoField → Res (List Column)
  | [] => .ok []
  | field :: rest =>
    match genColumnWith resolve field with
    | .ok none => genCoulmnsWith resolve rest
    | .ok (some c) =>
      (match genCoulmnsWith resolve rest with
       | .ok columns => .ok (c :: columns)
       | r => r)
    | .fatal n => .fatal n
    | .fail => .fail
    | .diverge => .diverge

/-- Struct-field tuples (as stored in `GoType.strct`) as `GoField`s. -/
def toGoFields (fields : List (String × GoType × List (String × String))) :
    List GoField :=
  fields.map (fun f => ⟨f.1, f.2.1, f.2.2⟩)

/-- `genSqlType` from main.go, with fuel making the unbounded recursion
through the named-type environment observable: one unit of fuel is
consumed per call, `Res.diverge` reported when it runs out.  The
function first looks the type's printed form up in `SQLTypeMap`, then
dispatches on the type's kind exactly as the Go type switch does;
`*types.Named` has `Underlying()` read from `env` (a Go invariant
guarantees an underlying exists; a name missing from `env` is mapped to
the failure result). -/
def genSqlType (env : Env) : Nat → GoType → Res String
  | 0, _ => .diverge
  | fuel + 1, t =>
    match SQLTypeMap.lookup (typeString t) with
    | some s => .ok s
    | none =>
      match t with
      | .slice e =>
        (match genSqlType env fuel e with
         | .ok s => .ok ("array<" ++ s ++ ">")
         | r => r)
      | .array _ e =>
        (match genSqlType env fuel e with
         | .ok s => .ok ("array<" ++ s ++ ">")
         | r => r)
      | .strct fields =>
        (match genCoulmnsWith (genSqlType env fuel) (toGoFields fields) with
         | .ok columns =>
           .ok ("struct<" ++
             String.intercalate ", "
               (columns.map (fun c => c.Name ++ ": " ++ c.«Type»)) ++ ">")
         | .fatal n => .fatal n
         | .fail => .fail
         | .diverge => .diverge)
      | .mapTy k v =>
        (match genSqlType env fuel k with
         | .ok ks =>
           (match genSqlType env fuel v with
            | .ok vs => .ok ("map<" ++ ks ++ ", " ++ vs ++ ">")
            | r => r)
         | r => r)
      | .pointer e => genSqlType env fuel e
      | .named n =>
        (match env.lookup n with
         | some u => genSqlType env fuel u
         | none => .fail)
      | _ => .fail

/-- `genCoulmns` from main.go at a given fuel: the loop with
`genSqlType env fuel` as the resolver for field types. -/
def genCoulmns (env : Env) (fuel : Nat) (fields : List GoField) :
    Res (List Column) :=
  genCoulmnsWith (genSqlType env fuel) fields

/-- One field of `genCoulmns` at a given fuel. -/
def genColumn (env : Env) (fuel : Nat) (field : GoField) :
    Res (Option Column) :=
  genColumnWith (genSqlType env fuel) field

/-- A self-referential named-type environment: the Go declaration
`type T struct { Next *T }` (package `p`), in which the record type is
indirectly a field of itself. -/
def selfRefEnv : Env :=
  [("p.T", .strct [("Next", .pointer (.named "p.T"), [])])]

/-- One recursion step of `genSqlType` that is guaranteed to be taken:
`ResolveStep env a b` holds when resolving `a` invokes resolving `b`
and an endless resolution of `b` makes the resolution of `a` endless.
Each constructor carries exactly the side conditions under which the Go
code reaches the recursive call: the `SQLTypeMap` lookup must miss
where it could hit, a map's value is only resolved when its key does
not fail, and a struct field is only resolved when no earlier field
aborts (here: all earlier fields carry a type override or drop marker)
and the field itself is neither dropped nor overridden. -/
inductive ResolveStep (env : Env) : GoType → GoType → Prop where
  | slice (e : GoType)
      (hmiss : SQLTypeMap.lookup (typeString (.slice e)) = none) :
      ResolveStep env (.slice e) e
  | array (n : Nat) (e : GoType)
      (hmiss : SQLTypeMap.lookup (typeString (.array n e)) = none) :
      ResolveStep env (.array n e) e
  | pointer (e : GoType) : ResolveStep env (.pointer e) e
  | named (n : String) (u : GoType) (hu : env.lookup n = some u)
      (hmiss : SQLTypeMap.lookup n = none) :
      ResolveStep env (.named n) u
  | mapKey (k v : GoType) : ResolveStep env (.mapTy k v) k
  | mapValue (k v : GoType)
      (hk : ∀ fuel, genSqlType env fuel k = .diverge ∨
              ∃ ks, genSqlType env fuel k = .ok ks) :
      ResolveStep env (.mapTy k v) v
  | field (pre post : List (String × GoType × List (String × String)))
      (fname : String) (ftype : GoType) (ftags : List (String × String))
      (hpre : ∀ g ∈ pre, athenaValue ⟨g.1, g.2.1, g.2.2⟩ ≠ "")
      (hname : columnName ⟨fname, ftype, ftags⟩ ≠ "-")
      (hath : athenaValue ⟨fname, ftype, ftags⟩ = "") :
      ResolveStep env (.strct (pre ++ (fname, ftype, ftags) :: post)) ftype

/-! ## Helper lemmas -/

theorem string_data_append (a b : String) : (a ++ b).data = a.data ++ b.data := by
  rcases a with ⟨la⟩
  rcases b with ⟨lb⟩
  rfl

/-- Association-list lookup misses when every key differs from the
query within the first `n` characters. -/
theorem lookup_eq_none_of_take (n : Nat) (x : String) (m : List (String × String))
    (hm : ∀ p ∈ m, p.1.data.take n ≠ x.data.take n) : m.lookup x = none := by
  induction m with
  | nil => rfl
  | cons p ps ih =>
    obtain ⟨k, v⟩ := p
    have hb : (x == k) = false := by
      refine beq_eq_false_iff_ne.mpr fun he => ?_
      exact hm (k, v) (List.mem_cons_self _ _) (by rw [he])
    simp only [List.lookup, hb]
    exact ih fun q hq => hm q (List.mem_cons_of_mem _ hq)

/-- No `SQLTypeMap` key starts with `*`, so the `String()` of a pointer
type never hits the primitive table. -/
theorem sqlmap_miss_pointer (t : GoType) :
    SQLTypeMap.lookup (typeString (.pointer t)) = none := by
  have hkeys : ∀ p ∈ SQLTypeMap, p.1.data.take 1 ≠ ['*'] := by decide
  have hx : (typeString (.pointer t)).data.take 1 = ['*'] := by
    show (("*" : String) ++ typeString t).data.take 1 = _
    rw [string_data_append]
    rfl
  refine lookup_eq_none_of_take 1 _ _ fun p hp => ?_
  rw [hx]
  exact hkeys p hp

/-- No `SQLTypeMap` key starts with `m`, so the `String()` of a map
type never hits the primitive table. -/
theorem sqlmap_miss_mapTy (k v : GoType) :
    SQLTypeMap.lookup (typeString (.mapTy k v)) = none := by
  have hkeys : ∀ p ∈ SQLTypeMap, p.1.data.take 1 ≠ ['m'] := by decide
  have hx : (typeString (.mapTy k v)).data.take 1 = ['m'] := by
    show (("map[" : String) ++ typeString k ++ "]" ++ typeString v).data.take 1 = _
    rw [string_data_append, string_data_append, string_data_append]
    rfl
  refine lookup_eq_none_of_take 1 _ _ fun p hp => ?_
  rw [hx]
  exact hkeys p hp

/-- No `SQLTypeMap` key starts with `stru`, so the `String()` of a
struct type (which starts `struct` + brace) never hits the primitive
table. -/
theorem sqlmap_miss_strct (fields : List (String × GoType × List (String × String))) :
    SQLTypeMap.lookup (typeString (.strct fields)) = none := by
  have hkeys : ∀ p ∈ SQLTypeMap, p.1.data.take 4 ≠ ['s', 't', 'r', 'u'] := by decide
  have hx : (typeString (.strct fields)).data.take 4 = ['s', 't', 'r', 'u'] := by
    show (("struct\x7b" : String) ++ fieldsString fields ++ "\x7d").data.take 4 = _
    rw [string_data_append, string_data_append]
    rfl
  refine lookup_eq_none_of_take 4 _ _ fun p hp => ?_
  rw [hx]
  exact hkeys p hp

/-- Unfolding of `genSqlType` at a pointer type: the `SQLTypeMap`
lookup always misses, and the `*types.Pointer` arm recurses into the
element type. -/
theorem genSqlType_pointer (env : Env) (fuel : Nat) (t : GoType) :
    genSqlType env (fuel + 1) (.pointer t) = genSqlType env fuel t := by
  simp only [genSqlType, sqlmap_miss_pointer]

/-- Unfolding of `genSqlType` at a map type: the `SQLTypeMap` lookup
always misses, and the `*types.Map` arm resolves key then value. -/
theorem genSqlType_mapTy (env : Env) (fuel : Nat) (k v : GoType) :
    genSqlType env (fuel + 1) (.mapTy k v) =
      (match genSqlType env fuel k with
       | .ok ks =>
         (match genSqlType env fuel v with
          | .ok vs => .ok ("map<" ++ ks ++ ", " ++ vs ++ ">")
          | r => r)
       | r => r) := by
  simp only [genSqlType, sqlmap_miss_mapTy]

/-- Unfolding of `genSqlType` at a struct type: the `SQLTypeMap` lookup
always misses, and the `*types.Struct` arm formats the columns produced
by `genCoulmns`. -/
theorem genSqlType_strct (env : Env) (fuel : Nat)
    (fields : List (String × GoType × List (String × String))) :
    genSqlType env (fuel + 1) (.strct fields) =
      (match genCoulmns env fuel (toGoFields fields) with
       | .ok columns =>
         .ok ("struct<" ++
           String.intercalate ", "
             (columns.map (fun c => c.Name ++ ": " ++ c.«Type»)) ++ ">")
       | .fatal n => .fatal n
       | .fail => .fail
       | .diverge => .diverge) := by
  simp only [genSqlType, sqlmap_miss_strct, genCoulmns]

/-- The `genCoulmns` loop processes a concatenation left to right:
columns concatenate when both halves succeed, and the first fatal,
failing or diverging field decides the result. -/
theorem genCoulmnsWith_append (r : GoType → Res String) (xs ys : List GoField) :
    genCoulmnsWith r (xs ++ ys) =
      (match genCoulmnsWith r xs with
       | .ok cols =>
         (match genCoulmnsWith r ys with
          | .ok cols2 => .ok (cols ++ cols2)
          | r2 => r2)
       | r2 => r2) := by
  induction xs with
  | nil =>
    show genCoulmnsWith r ys = _
    cases genCoulmnsWith r ys <;> rfl
  | cons f fs ih =>
    show genCoulmnsWith r (f :: (fs ++ ys)) = _
    simp only [genCoulmnsWith]
    cases genColumnWith r f with
    | ok oc =>
      cases oc with
      | none => exact ih
      | some c =>
        rw [ih]
        cases genCoulmnsWith r fs <;> cases genCoulmnsWith r ys <;> rfl
    | fatal n => rfl
    | fail => rfl
    | diverge => rfl

/-- A field whose loop iteration yields no column (`continue`) leaves
the result of `genCoulmns` on every surrounding field list unchanged. -/
theorem genCoulmnsWith_skip (r : GoType → Res String) (f : GoField)
    (h : genColumnWith r f = .ok none) (pre post : List GoField) :
    genCoulmnsWith r (pre ++ f :: post) = genCoulmnsWith r (pre ++ post) := by
  have hf : genCoulmnsWith r (f :: post) = genCoulmnsWith r post := by
    simp only [genCoulmnsWith, h]
  rw [genCoulmnsWith_append, genCoulmnsWith_append, hf]

/-- A field with a non-empty `athena` tag value never consults the type
resolver: its loop iteration has a fixed outcome. -/
theorem genColumnWith_const (g : GoField) (h : athenaValue g ≠ "") :
    ∃ oc, ∀ r, genColumnWith r g = .ok oc := by
  by_cases hn : columnName g = "-" ∨ athenaValue g = "-"
  · exact ⟨none, fun r => by simp [genColumnWith, hn]⟩
  · exact ⟨some ⟨columnName g, athenaValue g⟩, fun r => by simp [genColumnWith, hn, h]⟩

/-- A list of fields all carrying non-empty `athena` tag values yields
a fixed column list, whatever the resolver does. -/
theorem genCoulmnsWith_const (gs : List GoField) (h : ∀ g ∈ gs, athenaValue g ≠ "") :
    ∃ cols, ∀ r, genCoulmnsWith r gs = .ok cols := by
  induction gs with
  | nil => exact ⟨[], fun _ => rfl⟩
  | cons g gs ih =>
    obtain ⟨oc, hoc⟩ := genColumnWith_const g (h g (List.mem_cons_self _ _))
    obtain ⟨cols, hcols⟩ := ih fun g' hg' => h g' (List.mem_cons_of_mem _ hg')
    cases oc with
    | none => exact ⟨cols, fun r => by simp [genCoulmnsWith, hoc r, hcols r]⟩
    | some c => exact ⟨c :: cols, fun r => by simp [genCoulmnsWith, hoc r, hcols r]⟩

/-- Divergence travels backwards along a resolution step: if the callee
runs out of any fuel, the caller runs out of one fuel unit more. -/
theorem resolveStep_diverge {env : Env} {a b : GoType} (step : ResolveStep env a b)
    {fuel : Nat} (hdiv : genSqlType env fuel b = .diverge) :
    genSqlType env (fuel + 1) a = .diverge := by
  cases step with
  | slice e hmiss => simp [genSqlType, hmiss, hdiv]
  | array n e hmiss => simp [genSqlType, hmiss, hdiv]
  | pointer e => rw [genSqlType_pointer]; exact hdiv
  | named n u hu hmiss => simp [genSqlType, typeString, hmiss, hu, hdiv]
  | mapKey k v => rw [genSqlType_mapTy, hdiv]
  | mapValue k v hk =>
    rw [genSqlType_mapTy]
    rcases hk fuel with h | ⟨ks, h⟩ <;> rw [h]
    rw [hdiv]
  | field pre post fname ftype ftags hpre hname hath =>
    rw [genSqlType_strct]
    have htg : toGoFields (pre ++ (fname, b, ftags) :: post) =
        toGoFields pre ++ (⟨fname, b, ftags⟩ : GoField) :: toGoFields post := by
      simp [toGoFields]
    obtain ⟨cols, hcols⟩ := genCoulmnsWith_const (toGoFields pre) (by
      intro g' hg'
      obtain ⟨g, hg, rfl⟩ := List.mem_map.mp hg'
      exact hpre g hg)
    have hcol : genColumnWith (genSqlType env fuel) ⟨fname, b, ftags⟩ = .diverge := by
      simp [genColumnWith, hath, hname, hdiv]
    simp only [genCoulmns, htg, genCoulmnsWith_append, hcols, genCoulmnsWith, hcol]

/-- A type descriptor lying on a cycle of guaranteed resolution steps
cannot be resolved with any amount of fuel: each lap of the cycle
consumes fuel and returns to the same type. -/
theorem cycle_diverges (env : Env) (t : GoType) (path : List GoType)
    (hchain : List.Chain (ResolveStep env) t (path ++ [t])) :
    ∀ fuel, genSqlType env fuel t = .diverge := by
  have main : ∀ (fuel : Nat) (a : GoType) (l : List GoType),
      List.Chain (ResolveStep env) a (l ++ [t]) →
      genSqlType env fuel a = .diverge := by
    intro fuel
    induction fuel with
    | zero => intro a l _; rfl
    | succ f ih =>
      intro a l hc
      cases l with
      | nil =>
        cases hc with
        | cons step _ => exact resolveStep_diverge step (ih t path hchain)
      | cons c l' =>
        cases hc with
        | cons step rest => exact resolveStep_diverge step (ih c l' rest)
  exact fun fuel => main fuel t path hchain

/-! ## Claims -/

/-- C1 counterexample: the declared type `uint` is a signed/unsigned
integer width, but `SQLTypeMap` has no `"uint"` key and a `*types.Basic`
type falls into the type switch's default arm, so resolving it fails
rather than yielding `int`. -/
theorem uint_unresolved_counterexample :
    genSqlType [] 1 (.basic "uint") = .fail ∧
    genSqlType [] 1 (.basic "uint") ≠ .ok "int" := by decide

/-- C1 (amended): for every integer width actually present in
`SQLTypeMap` — int, int8, int16, int32, int64, uint8, uint16, uint32,
uint64, but not uint — resolution succeeds and yields `int`; for `uint`
it fails. -/
theorem integer_widths_resolve_to_int : ∀ (env : Env) (fuel : Nat),
    (∀ n ∈ ["int", "int8", "int16", "int32", "int64",
            "uint8", "uint16", "uint32", "uint64"],
       genSqlType env (fuel + 1) (.basic n) = .ok "int") ∧
    genSqlType env (fuel + 1) (.basic "uint") = .fail := by
  intro env fuel
  refine ⟨fun n hn => ?_, rfl⟩
  fin_cases hn <;> rfl

/-- C1 witness: the amended theorem applied at `uint16`, with empty
environment and fuel 1. -/
theorem integer_widths_resolve_to_int_witness :
    genSqlType [] 1 (.basic "uint16") = .ok "int" :=
  (integer_widths_resolve_to_int [] 0).1 "uint16" (by decide)

/-- C2: the acronym-aware snake_case conversion maps `UserID` to
`user_id`, `HTTPHeader` to `http_header`, `URL` to `url` (one segment),
and `CreatedAt` to `created_at`. -/
theorem camelToSnake_acronym_cases :
    CamelToSnake "UserID" = "user_id" ∧
    CamelToSnake "HTTPHeader" = "http_header" ∧
    CamelToSnake "URL" = "url" ∧
    CamelToSnake "CreatedAt" = "created_at" := by decide

/-- C3: type resolution has no cycle detection: whenever the
type-descriptor graph reachable by resolution from the input is cyclic
(a cycle of guaranteed resolution steps), `genSqlType` consumes every
amount of fuel without producing a result; in particular, on the
environment of `type T struct { Next *T }` — a record type that is
indirectly a field of itself — resolution of the record recurses
without bound. -/
theorem selfReferential_record_diverges :
    (∀ (env : Env) (t : GoType) (path : List GoType),
       List.Chain (ResolveStep env) t (path ++ [t]) →
       ∀ fuel, genSqlType env fuel t = .diverge) ∧
    ∀ fuel, genSqlType selfRefEnv fuel (.named "p.T") = .diverge := by
  refine ⟨cycle_diverges, ?_⟩
  refine cycle_diverges selfRefEnv (.named "p.T")
    [.strct [("Next", .pointer (.named "p.T"), [])], .pointer (.named "p.T")] ?_
  refine List.Chain.cons (.named _ _ rfl (by decide)) ?_
  refine List.Chain.cons
    (ResolveStep.field [] [] "Next" (.pointer (.named "p.T")) []
      (by simp) (by decide) rfl) ?_
  exact List.Chain.cons (.pointer _) List.Chain.nil

/-- C3 witness: the cycle statement applied to the concrete
environment of `type T struct { Next *T }`, with the three-step cycle
named type to struct to pointer field and back, at fuel 7. -/
theorem selfReferential_record_diverges_witness :
    genSqlType selfRefEnv 7 (.named "p.T") = .diverge :=
  selfReferential_record_diverges.1 selfRefEnv (.named "p.T")
    [.strct [("Next", .pointer (.named "p.T"), [])], .pointer (.named "p.T")]
    (List.Chain.cons (.named _ _ rfl (by decide))
      (List.Chain.cons
        (ResolveStep.field [] [] "Next" (.pointer (.named "p.T")) []
          (by simp) (by decide) rfl)
        (List.Chain.cons (.pointer _) List.Chain.nil)))
    7

/-- C4 counterexample: a field whose tag map contains the `athena` key
with the empty value (as in a Go tag `athena:""`, a value other than
`-`) does not get column type `""`; instead `sqlType == ""` sends the
code into type resolution, so the declared type is inspected after all:
an unsupported declared type aborts, a supported one supplies the type. -/
theorem athena_empty_value_counterexample :
    genColumn [] 1 ⟨"Cb", .other "func()", [("athena", "")]⟩ = .fatal "Cb" ∧
    genColumn [] 1 ⟨"Cb", .other "func()", [("athena", "")]⟩ ≠
      .ok (some ⟨"cb", ""⟩) ∧
    genColumn [] 1 ⟨"Cb", .basic "int64", [("athena", "")]⟩ =
      .ok (some ⟨"cb", "int"⟩) := by decide

/-- C4 (amended): for every field whose tag map contains the `athena`
key with a value other than `-` and other than the empty string, the
iteration's result is fully determined by the tags: the column's type
is exactly the raw tag value (no column at all when the name is the
drop marker), and the field's declared type is never resolved or
inspected — replacing it changes nothing. -/
theorem athena_override_wins : ∀ (env : Env) (fuel : Nat) (f : GoField) (v : String),
    lookupTag f.tags "athena" = some v → v ≠ "-" → v ≠ "" →
    (genColumn env fuel f =
       .ok (if columnName f = "-" then none else some ⟨columnName f, v⟩)) ∧
    (∀ t : GoType, genColumn env fuel ⟨f.name, t, f.tags⟩ = genColumn env fuel f) := by
  intro env fuel f v ha h1 h2
  have hav : athenaValue f = v := by simp [athenaValue, ha]
  have hav2 : ∀ t : GoType, athenaValue ⟨f.name, t, f.tags⟩ = v := fun _ => hav
  have hcn : ∀ t : GoType, columnName ⟨f.name, t, f.tags⟩ = columnName f := fun _ => rfl
  constructor
  · by_cases hn : columnName f = "-"
    · simp [genColumn, genColumnWith, hav, hn]
    · simp [genColumn, genColumnWith, hav, hn, h1, h2]
  · intro t
    by_cases hn : columnName f = "-" <;>
      simp [genColumn, genColumnWith, hcn, hav, hav2, hn, h1, h2]

/-- C4 witness: the amended theorem at the spec's own example, a field
declared `string` with tag `athena:"timestamp"`: the emitted column
type is the raw tag value `timestamp`. -/
theorem athena_override_wins_witness :
    genColumn [] 0 ⟨"UpdatedAt", .basic "string", [("athena", "timestamp")]⟩ =
      .ok (some ⟨"updated_at", "timestamp"⟩) := by
  have h := (athena_override_wins [] 0
    ⟨"UpdatedAt", .basic "string", [("athena", "timestamp")]⟩ "timestamp"
    rfl (by decide) (by decide)).1
  rw [h]
  decide

/-- C5: a field whose `json` tag's first comma-segment is exactly `-`,
or whose `athena` tag value is exactly `-`, contributes no column: the
columns computed for any surrounding field list are exactly those with
the field deleted, whatever the other tag says and whatever the
declared type is. -/
theorem drop_marker_removes_field :
    ∀ (env : Env) (fuel : Nat) (pre post : List GoField) (f : GoField),
    ((∃ jv, lookupTag f.tags "json" = some jv ∧
        (splitComma jv.toList).headD [] = ['-']) ∨
      lookupTag f.tags "athena" = some "-") →
    genCoulmns env fuel (pre ++ f :: post) = genCoulmns env fuel (pre ++ post) := by
  intro env fuel pre post f h
  have hdrop : genColumnWith (genSqlType env fuel) f = .ok none := by
    rcases h with ⟨jv, hj, hseg⟩ | ha
    · have hn : columnName f = "-" := by
        simp only [columnName, hj]
        rw [hseg]
      simp [genColumnWith, hn]
    · have hav : athenaValue f = "-" := by simp [athenaValue, ha]
      simp [genColumnWith, hav]
  exact genCoulmnsWith_skip _ _ hdrop pre post

/-- C5 witness: a field tagged `json:"-"` whose declared type is not
even resolvable is removed between two ordinary fields, with the same
output as if it were absent. -/
theorem drop_marker_removes_field_witness :
    genCoulmns [] 1 [⟨"A", .basic "int", []⟩,
                     ⟨"Secret", .other "func()", [("json", "-")]⟩,
                     ⟨"B", .basic "bool", []⟩] =
      genCoulmns [] 1 [⟨"A", .basic "int", []⟩, ⟨"B", .basic "bool", []⟩] :=
  drop_marker_removes_field [] 1 [⟨"A", .basic "int", []⟩]
    [⟨"B", .basic "bool", []⟩] ⟨"Secret", .other "func()", [("json", "-")]⟩
    (Or.inl ⟨"-", rfl, by decide⟩)

/-- C6: resolution of a pointer type is exactly resolution of its
target (one recursion step), so pointer wrapping never appears in the
output; in particular `*[]*string` resolves to `array<string>`, the
same as `[]string`. -/
theorem pointer_resolution_transparent :
    (∀ (env : Env) (fuel : Nat) (t : GoType),
       genSqlType env (fuel + 1) (.pointer t) = genSqlType env fuel t) ∧
    genSqlType [] 4 (.pointer (.slice (.pointer (.basic "string")))) =
      genSqlType [] 4 (.slice (.basic "string")) ∧
    genSqlType [] 4 (.pointer (.slice (.pointer (.basic "string")))) =
      .ok "array<string>" := by
  refine ⟨genSqlType_pointer, by decide, by decide⟩

/-- C7: a map type resolves to `map<K, V>` with key and value both
fully recursively resolved; the resolution fails exactly when the key
fails or the key succeeds and the value fails; `map[string]int64`
resolves to `map<string, int>` and a non-primitive key such as
`[]int32` is resolved recursively, not rejected. -/
theorem mapping_resolution :
    (∀ (env : Env) (fuel : Nat) (k v : GoType),
       genSqlType env (fuel + 1) (.mapTy k v) =
         (match genSqlType env fuel k with
          | .ok ks =>
            (match genSqlType env fuel v with
             | .ok vs => .ok ("map<" ++ ks ++ ", " ++ vs ++ ">")
             | r => r)
          | r => r)) ∧
    (∀ (env : Env) (fuel : Nat) (k v : GoType),
       (genSqlType env (fuel + 1) (.mapTy k v) = .fail ↔
         genSqlType env fuel k = .fail ∨
           ((∃ ks, genSqlType env fuel k = .ok ks) ∧
             genSqlType env fuel v = .fail))) ∧
    genSqlType [] 2 (.mapTy (.basic "string") (.basic "int64")) =
      .ok "map<string, int>" ∧
    genSqlType [] 3 (.mapTy (.slice (.basic "int32")) (.basic "string")) =
      .ok "map<array<int>, string>" := by
  refine ⟨genSqlType_mapTy, ?_, by decide, by decide⟩
  intro env fuel k v
  rw [genSqlType_mapTy]
  cases hk : genSqlType env fuel k <;> cases hv : genSqlType env fuel v <;> simp

/-- C8: a struct type resolves to `struct<name1: type1, ...>` with one
`name: type` entry per column emitted by `genCoulmns` in field
declaration order (dropped fields absent); zero emitted columns give
`struct<>`. -/
theorem record_resolution_struct :
    (∀ (env : Env) (fuel : Nat)
       (fields : List (String × GoType × List (String × String))),
       genSqlType env (fuel + 1) (.strct fields) =
         (match genCoulmns env fuel (toGoFields fields) with
          | .ok columns =>
            .ok ("struct<" ++
              String.intercalate ", "
                (columns.map (fun c => c.Name ++ ": " ++ c.«Type»)) ++ ">")
          | .fatal n => .fatal n
          | .fail => .fail
          | .diverge => .diverge)) ∧
    (∀ (env : Env) (fuel : Nat),
       genSqlType env (fuel + 1) (.strct []) = .ok "struct<>") ∧
    genSqlType [] 2 (.strct [("UserID", .basic "int64", [("json", "user_id")]),
                             ("Name", .basic "string", [("json", "name")])]) =
      .ok "struct<user_id: int, name: string>" ∧
    genSqlType [] 2 (.strct [("A", .basic "int", []),
                             ("S", .basic "string", [("json", "-")]),
                             ("B", .basic "bool", [])]) =
      .ok "struct<a: int, b: boolean>" := by
  exact ⟨genSqlType_strct, fun env fuel => rfl, by decide, by decide⟩

/-- C9 counterexample: a field with no type-override tag and an
unsupported declared type (`func()`) but a `json:"-"` drop marker is
skipped silently: column generation for the run succeeds with an empty
column list instead of failing fatally. -/
theorem dropped_unsupported_field_counterexample :
    lookupTag [("json", "-")] "athena" = none ∧
    genSqlType [] 1 (.other "func()") = .fail ∧
    genCoulmns [] 1 [⟨"Cb", .other "func()", [("json", "-")]⟩] = .ok [] := by decide

/-- C9 (amended): for every field with no type-override tag that is not
dropped by a `-` marker and whose declared type fails to resolve,
column generation fails fatally for the whole run — whatever succeeded
before it is discarded, nothing after it is reached, no column list is
produced — and the error names the offending field's identifier. -/
theorem unsupported_type_fatal :
    ∀ (env : Env) (fuel : Nat) (pre : List GoField) (f : GoField)
      (post : List GoField) (cols : List Column),
    genCoulmns env fuel pre = .ok cols →
    lookupTag f.tags "athena" = none →
    columnName f ≠ "-" →
    genSqlType env fuel f.type = .fail →
    genCoulmns env fuel (pre ++ f :: post) = .fatal f.name ∧
    ∀ cols2, genCoulmns env fuel (pre ++ f :: post) ≠ .ok cols2 := by
  intro env fuel pre f post cols hpre ha hn hf
  have hav : athenaValue f = "" := by simp [athenaValue, ha]
  have hcol : genColumnWith (genSqlType env fuel) f = .fatal f.name := by
    simp [genColumnWith, hav, hn, hf]
  have hmain : genCoulmns env fuel (pre ++ f :: post) = .fatal f.name := by
    show genCoulmnsWith _ _ = _
    rw [genCoulmnsWith_append]
    rw [show genCoulmnsWith (genSqlType env fuel) pre = .ok cols from hpre]
    simp only [genCoulmnsWith, hcol]
  exact ⟨hmain, fun cols2 => by rw [hmain]; simp⟩

/-- C9 witness: after one successfully resolved field, a plain field of
function type aborts the run with its identifier. -/
theorem unsupported_type_fatal_witness :
    genCoulmns [] 1 [⟨"Name", .basic "string", []⟩, ⟨"Cb", .other "func()", []⟩] =
      .fatal "Cb" :=
  (unsupported_type_fatal [] 1 [⟨"Name", .basic "string", []⟩]
    ⟨"Cb", .other "func()", []⟩ [] [⟨"name", "string"⟩]
    (by decide) rfl (by decide) rfl).1

/-- C10: a `json` tag whose first comma-segment is empty (value
`",omitempty"` or `""`) still overrides the name: the emitted column's
name is the empty string, not the derived snake_case identifier. -/
theorem empty_json_name_used :
    ∀ (env : Env) (fuel : Nat) (f : GoField) (jv T : String),
    lookupTag f.tags "json" = some jv →
    (splitComma jv.toList).headD [] = [] →
    lookupTag f.tags "athena" = none →
    genSqlType env fuel f.type = .ok T →
    genColumn env fuel f = .ok (some ⟨"", T⟩) := by
  intro env fuel f jv T hj hseg ha hT
  have hn : columnName f = "" := by
    simp only [columnName, hj]
    rw [hseg]
  have hav : athenaValue f = "" := by simp [athenaValue, ha]
  simp [genColumn, genColumnWith, hn, hav, hT]

/-- C10 witness: a field `UserID int64` with tag `json:",omitempty"`
produces the column `{"", int}` — the empty override is used, not
`user_id`. -/
theorem empty_json_name_used_witness :
    genColumn [] 1 ⟨"UserID", .basic "int64", [("json", ",omitempty")]⟩ =
      .ok (some ⟨"", "int"⟩) :=
  empty_json_name_used [] 1 ⟨"UserID", .basic "int64", [("json", ",omitempty")]⟩
    ",omitempty" "int" rfl (by decide) rfl rfl
